import Mathlib

/-!
Verification of the Ecwid size-selector widget (size-selector.js) and its Vercel
proxy endpoint. The JavaScript source is embedded shallowly: pure functions become
Lean functions, the localStorage-backed cache becomes explicit storage passing,
the async per-node pipeline becomes a small-step machine whose atomic actions are
the synchronous blocks between suspension points, and JavaScript truthiness is
modelled explicitly where the code relies on it.
-/

namespace SizeSelector

/-- Value of CONFIG.sizeOptionName. -/
def sizeOptionName : String := "Talle"

/-- Cache expiration window in milliseconds, CONFIG.cache.expirationHours = 12
    converted as in Cache.getAll: expirationHours * 60 * 60 * 1000. -/
def expirationMs : Nat := 12 * 60 * 60 * 1000

/-- Value of CONFIG.cache.enabled. -/
def cacheEnabled : Bool := true

/-- JavaScript a || b for a possibly-absent string a: undefined and the empty
    string are falsy, so they fall through to b. -/
def jsOrString : Option String → String → String
  | some s, d => if s = "" then d else s
  | none, d => d

/-- JavaScript a || b for possibly-absent numbers: undefined and 0 are falsy. -/
def jsOrInt : Option Int → Option Int → Option Int
  | some x, d => if x = 0 then d else some x
  | none, d => d

/-- JavaScript toUpperCase on the character list of the string; the values in
    play are plain ASCII size labels. -/
def jsToUpper (s : String) : String := String.mk (s.data.map Char.toUpper)

/-- JavaScript toLowerCase on the character list of the string. -/
def jsToLower (s : String) : String := String.mk (s.data.map Char.toLower)

/-- Character-list prefix test backing the substring search. -/
def startsWithChars : List Char → List Char → Bool
  | _, [] => true
  | [], _ :: _ => false
  | c :: cs, p :: ps => c == p && startsWithChars cs ps

/-- Character-list substring search: does some suffix of the haystack start
    with the pattern. -/
def containsChars (pat : List Char) : List Char → Bool
  | [] => startsWithChars [] pat
  | c :: rest => startsWithChars (c :: rest) pat || containsChars pat rest

/-- One element of variation.options: the option name may be absent and may also
    come through nameTranslated.es_419 or nameTranslated.es. -/
structure ProductOption where
  name : Option String := none
  nameTranslated_es_419 : Option String := none
  nameTranslated_es : Option String := none
  value : String := ""
  deriving DecidableEq

/-- One combination object as returned by the acquisition layer. Absent JSON
    fields are modelled as none. -/
structure VariationRecord where
  id : Option Nat := none
  options : Option (List ProductOption) := none
  inStock : Option Bool := none
  unlimited : Option Bool := none
  sku : Option String := none
  price : Option Int := none
  defaultDisplayedPrice : Option Int := none
  deriving DecidableEq

/-- Size-option name test used inside extractSizes: the exact synonym list
    followed by the case-insensitive comparisons. -/
def matchesSizeOptionName (optName : String) : Bool :=
  optName == sizeOptionName || optName == "Size" || optName == "Talla" ||
  optName == "Talle" || optName == "TALLE" || optName == "TALLES" ||
  optName == "Talles" ||
  jsToLower optName == "size" || jsToLower optName == "talle" ||
  jsToLower optName == "talla" || jsToLower optName == "talles"

/-- Effective option name: opt.name || opt.nameTranslated?.es_419 ||
    opt.nameTranslated?.es || the empty string. -/
def optionName (o : ProductOption) : String :=
  jsOrString o.name (jsOrString o.nameTranslated_es_419 (jsOrString o.nameTranslated_es ""))

/-- Translation of variation.options?.find(...) locating the size option; a
    missing options array yields no option. -/
def findSizeOption (v : VariationRecord) : Option ProductOption :=
  match v.options with
  | none => none
  | some l => l.find? (fun o => matchesSizeOptionName (optionName o))

/-- Stock rule from extractSizes:
    variation.inStock !== false && (variation.unlimited || variation.inStock === true). -/
def stockFlag (v : VariationRecord) : Bool :=
  (v.inStock != some false) && (v.unlimited == some true || v.inStock == some true)

/-- Normalized view of one variation record. -/
structure SizeEntry where
  value : String
  inStock : Bool
  variationId : Option Nat
  sku : Option String
  price : Option Int
  deriving DecidableEq

/-- Body of the map inside extractSizes: records without a size option map to
    null and are filtered out. -/
def toSizeEntry (v : VariationRecord) : Option SizeEntry :=
  match findSizeOption v with
  | none => none
  | some o =>
      some { value := o.value, inStock := stockFlag v, variationId := v.id,
             sku := v.sku, price := jsOrInt v.price v.defaultDisplayedPrice }

/-- Rank table sizeOrder applied to value.toUpperCase(); lookups that miss the
    table are falsy and fall back to 999 via the || 999. -/
def sizeRank (s : String) : Nat :=
  match jsToUpper s with
  | "XS" => 1
  | "S" => 2
  | "M" => 3
  | "L" => 4
  | "XL" => 5
  | "XXL" => 6
  | "XXXL" => 7
  | _ => 999

/-- Comparator passed to sizes.sort, orderA - orderB, as a boolean order; the
    engine sort is required to be stable, which mergeSort is. -/
def sizeLE (a b : SizeEntry) : Bool := decide (sizeRank a.value ≤ sizeRank b.value)

/-- extractSizes: map each record to a normalized entry, drop records without a
    size option, then stable-sort by the rank table. The early return for a
    non-array or empty input coincides with the map-filter-sort of the empty
    list. -/
def extractSizes (variations : List VariationRecord) : List SizeEntry :=
  (variations.filterMap toSizeEntry).mergeSort sizeLE

/-- Rendered size button: the DOM attributes and handlers createSizeSelector
    attaches to each button element. -/
structure SizeButton where
  value : String
  variationId : Option Nat
  dataInStock : Bool
  disabled : Bool
  outOfStockClass : Bool
  hasClickHandler : Bool
  title : String
  deriving DecidableEq

/-- Per-entry button construction inside createSizeSelector: out-of-stock
    entries get the out-of-stock class, disabled = true and no click handler;
    in-stock entries get a click handler. -/
def makeSizeButton (s : SizeEntry) : SizeButton :=
  if s.inStock then
    { value := s.value, variationId := s.variationId, dataInStock := true,
      disabled := false, outOfStockClass := false, hasClickHandler := true,
      title := "Seleccionar talla " ++ s.value }
  else
    { value := s.value, variationId := s.variationId, dataInStock := false,
      disabled := true, outOfStockClass := true, hasClickHandler := false,
      title := "Talla " ++ s.value ++ " - Agotado" }

/-- The mushkana-size-selector container produced by createSizeSelector. -/
structure SelectorFragment where
  productId : String
  buttons : List SizeButton
  deriving DecidableEq

/-- createSizeSelector: null for an empty entry list, otherwise a container
    holding one button per entry. -/
def createSizeSelector (sizes : List SizeEntry) (productId : String) :
    Option SelectorFragment :=
  if sizes.length = 0 then none
  else some { productId := productId, buttons := sizes.map makeSizeButton }

/-- Stored cache blob, the JSON object written under the storage key:
    a top-level timestamp and a products mapping. -/
structure CacheBlob where
  timestamp : Nat
  products : List (String × List VariationRecord)
  deriving DecidableEq

/-- Content of localStorage under CONFIG.cache.storageKey; none models an
    absent item. -/
abbrev Storage := Option CacheBlob

/-- JavaScript object property read cache[productId], returning the value of
    the first matching key. -/
def lookupProduct (m : List (String × List VariationRecord)) (k : String) :
    Option (List VariationRecord) :=
  match m with
  | [] => none
  | p :: rest => if p.1 == k then some p.2 else lookupProduct rest k

/-- JavaScript object property write cache[productId] = variations: replace the
    value of an existing key in place, otherwise append the key. -/
def setProduct (m : List (String × List VariationRecord)) (k : String)
    (v : List VariationRecord) : List (String × List VariationRecord) :=
  match m with
  | [] => [(k, v)]
  | p :: rest => if p.1 == k then (k, v) :: rest else p :: setProduct rest k v

/-- Cache.getAll: returns the products mapping together with the storage after
    the read, since an expired read clears the stored item. Expiration fires
    when the timestamp is truthy and now - timestamp exceeds the window. -/
def cacheGetAll (now : Nat) (st : Storage) :
    List (String × List VariationRecord) × Storage :=
  if !cacheEnabled then ([], st)
  else
    match st with
    | none => ([], none)
    | some blob =>
        if blob.timestamp ≠ 0 ∧ (now : Int) - (blob.timestamp : Int) > (expirationMs : Int) then
          ([], none)
        else (blob.products, some blob)

/-- Cache.get: cache[productId] || null. A present entry is truthy (arrays are
    truthy in JavaScript, even empty ones) and is returned; an absent key gives
    null, modelled as none. -/
def cacheGet (now : Nat) (st : Storage) (productId : String) :
    Option (List VariationRecord) × Storage :=
  (lookupProduct (cacheGetAll now st).1 productId, (cacheGetAll now st).2)

/-- Cache.set: read the current mapping through getAll, merge the new records
    under the product key, and rewrite the whole blob with a fresh timestamp. -/
def cacheSet (now : Nat) (st : Storage) (productId : String)
    (variations : List VariationRecord) : Storage :=
  if !cacheEnabled then st
  else some { timestamp := now,
              products := setProduct (cacheGetAll now st).1 productId variations }

/-- Raw entry lookup in the stored blob, ignoring expiration; used to state
    invariants about what the pipeline ever writes. -/
def rawEntry (st : Storage) (k : String) : Option (List VariationRecord) :=
  match st with
  | none => none
  | some blob => lookupProduct blob.products k

/-- Outcome of each source as getProductVariations observes it: the return
    value of the corresponding fetcher (null on failure). The jsApi source is
    consulted only when the Ecwid host object is defined. -/
structure FetchEnv where
  ecwidAvailable : Bool
  jsApiResult : Option (List VariationRecord)
  proxyResult : Option (List VariationRecord)
  apiResult : Option (List VariationRecord)
  deriving DecidableEq

/-- Result of one getProductVariations call: the returned array, the storage
    after the call, and which sources were invoked. -/
structure FetchOut where
  result : List VariationRecord
  storage : Storage
  usedJsApi : Bool
  usedProxy : Bool
  usedApi : Bool
  deriving DecidableEq

/-- Method 3 of getProductVariations, the direct REST fallback, and the final
    empty-array return when it too yields nothing usable. -/
def fetchViaApi (env : FetchEnv) (now : Nat) (st : Storage) (productId : String)
    (usedJs : Bool) : FetchOut :=
  match env.apiResult with
  | some l =>
      if l.isEmpty then ⟨[], st, usedJs, true, true⟩
      else ⟨l, cacheSet now st productId l, usedJs, true, true⟩
  | none => ⟨[], st, usedJs, true, true⟩

/-- Method 2 of getProductVariations, the Vercel proxy source, falling through
    to the direct API when it yields nothing usable. -/
def fetchViaProxy (env : FetchEnv) (now : Nat) (st : Storage) (productId : String)
    (usedJs : Bool) : FetchOut :=
  match env.proxyResult with
  | some l =>
      if l.isEmpty then fetchViaApi env now st productId usedJs
      else ⟨l, cacheSet now st productId l, usedJs, true, false⟩
  | none => fetchViaApi env now st productId usedJs

/-- getProductVariations: cache first (any present entry is truthy and returned
    at once), then the Ecwid JS API when available, then the proxy, then the
    direct API; each non-empty source result is written to the cache before it
    is returned; total failure returns the empty array. -/
def getProductVariations (env : FetchEnv) (now : Nat) (st : Storage)
    (productId : String) : FetchOut :=
  match (cacheGet now st productId).1 with
  | some cached => ⟨cached, (cacheGet now st productId).2, false, false, false⟩
  | none =>
      if env.ecwidAvailable then
        match env.jsApiResult with
        | some l =>
            if l.isEmpty then
              fetchViaProxy env now (cacheGet now st productId).2 productId true
            else ⟨l, cacheSet now (cacheGet now st productId).2 productId l,
                  true, false, false⟩
        | none => fetchViaProxy env now (cacheGet now st productId).2 productId true
      else fetchViaProxy env now (cacheGet now st productId).2 productId false

/-- Outcome of one HTTP attempt as a fetcher observes it: a parsed 2xx body, a
    non-2xx status (response.ok false), or a rejected fetch whose error message
    is carried for the catch-clause test in the direct API fetcher. -/
inductive HttpResp where
  | ok (body : List VariationRecord)
  | httpStatus (code : Nat)
  | netFail (msg : String)
  deriving DecidableEq

/-- Substring test error.message.includes. -/
def jsIncludes (msg pat : String) : Bool := containsChars pat.data msg.data

/-- Error message thrown on a non-2xx response in getProductVariationsFromAPI. -/
def httpErrorMessage (code : Nat) : String := "HTTP error! status: " ++ toString code

/-- getProductVariationsFromProxy modelled over the per-attempt outcomes: the
    attempt with retry count r observes responses r, matching the recursive
    re-invocation with retryCount + 1. Returns the result together with the
    list of backoff delays performed, in milliseconds: a 429 with fewer than 3
    retries used waits (retryCount + 1) * 2000; every other failure reaches the
    catch clause, which retries after 1000 while retryCount < 2; exhaustion
    returns null. -/
def fetchFromProxy (responses : Nat → HttpResp) (retryCount : Nat) :
    Option (List VariationRecord) × List Nat :=
  match responses retryCount with
  | .ok body => (some body, [])
  | .httpStatus code =>
      if h : code = 429 ∧ retryCount < 3 then
        ((fetchFromProxy responses (retryCount + 1)).1,
         (retryCount + 1) * 2000 :: (fetchFromProxy responses (retryCount + 1)).2)
      else if h2 : retryCount < 2 then
        ((fetchFromProxy responses (retryCount + 1)).1,
         1000 :: (fetchFromProxy responses (retryCount + 1)).2)
      else (none, [])
  | .netFail _ =>
      if h : retryCount < 2 then
        ((fetchFromProxy responses (retryCount + 1)).1,
         1000 :: (fetchFromProxy responses (retryCount + 1)).2)
      else (none, [])
termination_by 4 - retryCount
decreasing_by all_goals omega

/-- getProductVariationsFromAPI, identical retry skeleton except that a 403
    returns null immediately and the catch clause refuses to retry when the
    thrown message mentions 403. -/
def fetchFromAPI (responses : Nat → HttpResp) (retryCount : Nat) :
    Option (List VariationRecord) × List Nat :=
  match responses retryCount with
  | .ok body => (some body, [])
  | .httpStatus code =>
      if code = 403 then (none, [])
      else if h : code = 429 ∧ retryCount < 3 then
        ((fetchFromAPI responses (retryCount + 1)).1,
         (retryCount + 1) * 2000 :: (fetchFromAPI responses (retryCount + 1)).2)
      else if h2 : retryCount < 2 ∧ !jsIncludes (httpErrorMessage code) "403" then
        ((fetchFromAPI responses (retryCount + 1)).1,
         1000 :: (fetchFromAPI responses (retryCount + 1)).2)
      else (none, [])
  | .netFail msg =>
      if h : retryCount < 2 ∧ !jsIncludes msg "403" then
        ((fetchFromAPI responses (retryCount + 1)).1,
         1000 :: (fetchFromAPI responses (retryCount + 1)).2)
      else (none, [])
termination_by 4 - retryCount
decreasing_by all_goals omega

/-- Request as the Vercel handler sees it: the method and the productId query
    parameter (absent when the query string lacks it). -/
structure ProxyRequest where
  method : String
  productId : Option String
  deriving DecidableEq

/-- JavaScript truthiness of the destructured query parameter: undefined and
    the empty string are falsy. -/
def jsTruthyString (o : Option String) : Bool :=
  match o with
  | some s => s != ""
  | none => false

/-- What the upstream Ecwid call produces, as the handler observes it: a thrown
    fetch error, or a response with its status, its text body (read on the
    error path) and the outcome of parsing its JSON body (read on the success
    path). -/
inductive UpstreamOutcome (α : Type) where
  | fetchFailed (msg : String)
  | response (status : Nat) (text : String) (json : Except String α)

/-- Body of the handler response. -/
inductive ResponseBody (α : Type) where
  | errorBody (error : String) (details : Option String) (message : Option String)
  | jsonData (d : α)

/-- Response the handler sends: status, the Cache-Control header if set, and
    the JSON body. -/
structure ProxyResponse (α : Type) where
  status : Nat
  cacheControl : Option String
  body : ResponseBody α

/-- The Vercel proxy handler: 405 for non-GET, 400 for a missing productId,
    the mirrored upstream status with the upstream text as details on a non-2xx
    upstream response, the upstream JSON unchanged plus the cache directive on
    success, and 500 with a generic error on any thrown failure. -/
def handler {α : Type} (req : ProxyRequest) (upstream : UpstreamOutcome α) :
    ProxyResponse α :=
  if req.method != "GET" then
    ⟨405, none, .errorBody "Method not allowed" none none⟩
  else if !jsTruthyString req.productId then
    ⟨400, none, .errorBody "productId is required" none none⟩
  else
    match upstream with
    | .fetchFailed msg =>
        ⟨500, none, .errorBody "Internal server error" none (some msg)⟩
    | .response status text json =>
        if !(200 ≤ status && status ≤ 299) then
          ⟨status, none,
           .errorBody ("Ecwid API error: " ++ toString status) (some text) none⟩
        else
          match json with
          | .ok d =>
              ⟨200, some "public, s-maxage=3600, stale-while-revalidate=86400",
               .jsonData d⟩
          | .error msg =>
              ⟨500, none, .errorBody "Internal server error" none (some msg)⟩

/-- Product card as the cleanup operations see it: whether the processed marker
    equals the string true, and the inserted mushkana-size-selector fragments it
    holds, in document order. -/
structure ProductCard where
  processed : Bool
  fragments : List SelectorFragment
  deriving DecidableEq

/-- getAllProductCards: every card not yet marked processed; the selector list
    carries the :not filter on the processed marker, and the Set accumulator
    deduplicates nodes matched by several selectors, so each card appears
    once. -/
def getAllProductCards (dom : List ProductCard) : List ProductCard :=
  dom.filter (fun c => !c.processed)

/-- Per-card body of cleanupPreviousSelectors: when a card holds more than one
    selector fragment, remove every fragment after the first. -/
def cleanupCard (c : ProductCard) : ProductCard :=
  if c.fragments.length > 1 then { c with fragments := c.fragments.take 1 } else c

/-- cleanupPreviousSelectors as a page transformation: the cards discovered by
    getAllProductCards are trimmed in place, every other card is untouched. -/
def cleanupPreviousSelectors (dom : List ProductCard) : List ProductCard :=
  dom.map (fun c => if !c.processed then cleanupCard c else c)

/-- Public removeDuplicates operation: the same in-place trimming, also
    counting how many fragments were removed. -/
def removeDuplicates (dom : List ProductCard) : List ProductCard × Nat :=
  (cleanupPreviousSelectors dom,
   (getAllProductCards dom).foldl
     (fun acc c =>
       if c.fragments.length > 1 then acc + (c.fragments.length - 1) else acc) 0)

/-- Environment one processProduct run observes: the extractProductId result,
    the variations the awaited fetch yields, whether findPriceElement finds an
    anchor, and whether the node is still attached to the document. -/
structure NodeEnv where
  productId : Option String
  variations : List VariationRecord
  hasPriceElement : Bool
  attachedToDocument : Bool
  deriving DecidableEq

/-- Mutable DOM state of the product node shared by concurrent processProduct
    invocations: the processed marker and the number of inserted
    mushkana-size-selector fragments. -/
structure NodeState where
  processed : Bool
  fragments : Nat
  deriving DecidableEq

/-- Continuation points of one processProduct invocation. The code between two
    suspension points runs atomically on the single JavaScript thread; the
    suspension points are the await of getProductVariations and the
    requestAnimationFrame deferral. -/
inductive ProcPhase where
  | start
  | fetched
  | raf
  | done
  deriving DecidableEq

/-- One atomic slice of processProduct. At start: return if the processed
    marker is set, otherwise set it immediately, return if a selector already
    exists or no product id is extractable, otherwise suspend at the fetch. At
    fetched: the guards on empty variations, empty sizes, a null builder
    result, the second selector check and the document-containment check,
    then the requestAnimationFrame deferral. At raf: insert the fragment after
    the price element, or append it to the content fallback, in either case
    only when the node still holds no selector. -/
def procStep (env : NodeEnv) : NodeState × ProcPhase → NodeState × ProcPhase
  | (n, .start) =>
      if n.processed then (n, .done)
      else
        let n2 := { n with processed := true }
        if n2.fragments ≠ 0 then (n2, .done)
        else
          match env.productId with
          | none => (n2, .done)
          | some _ => (n2, .fetched)
  | (n, .fetched) =>
      if env.variations.length = 0 then (n, .done)
      else if (extractSizes env.variations).length = 0 then (n, .done)
      else
        match createSizeSelector (extractSizes env.variations)
            (env.productId.getD "") with
        | none => (n, .done)
        | some _ =>
            if n.fragments ≠ 0 then (n, .done)
            else if !env.attachedToDocument then (n, .done)
            else (n, .raf)
  | (n, .raf) =>
      if env.hasPriceElement then
        if n.fragments = 0 then ({ n with fragments := n.fragments + 1 }, .done)
        else (n, .done)
      else
        if n.fragments = 0 then ({ n with fragments := n.fragments + 1 }, .done)
        else (n, .done)
  | (n, .done) => (n, .done)

/-- Two processProduct invocations racing on the same node. -/
structure TwoRuns where
  node : NodeState
  first : ProcPhase
  second : ProcPhase
  deriving DecidableEq

/-- Scheduler step: run the next atomic slice of the chosen invocation. -/
def runStep (env : NodeEnv) (s : TwoRuns) (pickFirst : Bool) : TwoRuns :=
  if pickFirst then
    { s with node := (procStep env (s.node, s.first)).1,
             first := (procStep env (s.node, s.first)).2 }
  else
    { s with node := (procStep env (s.node, s.second)).1,
             second := (procStep env (s.node, s.second)).2 }

/-- Run an arbitrary interleaving of the two invocations. -/
def runSchedule (env : NodeEnv) (s : TwoRuns) : List Bool → TwoRuns
  | [] => s
  | b :: rest => runSchedule env (runStep env s b) rest

theorem lookupProduct_setProduct_self (m : List (String × List VariationRecord))
    (k : String) (v : List VariationRecord) :
    lookupProduct (setProduct m k v) k = some v := by
  induction m with
  | nil => simp [setProduct, lookupProduct]
  | cons p rest ih =>
      by_cases h : p.1 = k
      · simp [setProduct, lookupProduct, h]
      · simp [setProduct, lookupProduct, h, ih]

theorem lookupProduct_setProduct_ne (m : List (String × List VariationRecord))
    (k k2 : String) (v : List VariationRecord) (h : k2 ≠ k) :
    lookupProduct (setProduct m k v) k2 = lookupProduct m k2 := by
  induction m with
  | nil => simp [setProduct, lookupProduct, Ne.symm h]
  | cons p rest ih =>
      by_cases hp : p.1 = k
      · simp [setProduct, lookupProduct, hp, Ne.symm h]
      · simp [setProduct, lookupProduct, hp, ih]

theorem cacheSet_eq (now : Nat) (st : Storage) (pid : String)
    (recs : List VariationRecord) :
    cacheSet now st pid recs =
      some ⟨now, setProduct (cacheGetAll now st).1 pid recs⟩ := by
  simp [cacheSet, cacheEnabled]

theorem cacheGetAll_of_fresh (now now2 : Nat)
    (m : List (String × List VariationRecord))
    (hwin : (now2 : Int) - (now : Int) ≤ (expirationMs : Int)) :
    cacheGetAll now2 (some ⟨now, m⟩) = (m, some ⟨now, m⟩) := by
  have hcond : ¬((⟨now, m⟩ : CacheBlob).timestamp ≠ 0 ∧
      (now2 : Int) - ((⟨now, m⟩ : CacheBlob).timestamp : Int) > (expirationMs : Int)) := by
    simp only []
    omega
  simp [cacheGetAll, cacheEnabled, hcond]

/-- C6: writing records for a product and reading them back inside the
    expiration window returns them unchanged, and the write merges into the
    existing mapping: at the instant of the write, the records observable for
    every other product identifier are unchanged. -/
theorem cache_roundtrip_and_merge (st : Storage) (now now2 : Nat)
    (pid pid2 : String) (recs : List VariationRecord)
    (hwin : (now2 : Int) - (now : Int) ≤ (expirationMs : Int))
    (hne : pid2 ≠ pid) :
    (cacheGet now2 (cacheSet now st pid recs) pid).1 = some recs ∧
    (cacheGet now (cacheSet now st pid recs) pid2).1 = (cacheGet now st pid2).1 := by
  have hself : (now : Int) - (now : Int) ≤ (expirationMs : Int) := by
    simp [expirationMs]
  constructor
  · rw [cacheSet_eq]
    simp [cacheGet, cacheGetAll_of_fresh now now2 _ hwin,
      lookupProduct_setProduct_self]
  · rw [cacheSet_eq]
    simp [cacheGet, cacheGetAll_of_fresh now now _ hself,
      lookupProduct_setProduct_ne _ _ _ _ hne]

/-- Witness for C6 at a concrete storage, clock and pair of product ids. -/
theorem cache_roundtrip_and_merge_witness :
    ((5 : Int) - (3 : Int) ≤ (expirationMs : Int)) ∧ ("p2" ≠ "p1") ∧
    (cacheGet 5 (cacheSet 3 (some ⟨2, [("p2", [])]⟩) "p1" [{}]) "p1").1 = some [{}] ∧
    (cacheGet 3 (cacheSet 3 (some ⟨2, [("p2", [])]⟩) "p1" [{}]) "p2").1 =
      (cacheGet 3 (some ⟨2, [("p2", [])]⟩) "p2").1 := by
  refine ⟨by decide, by decide, ?_⟩
  exact cache_roundtrip_and_merge (some ⟨2, [("p2", [])]⟩) 3 5 "p1" "p2" [{}]
    (by decide) (by decide)

/-- C5: a read against a blob whose truthy timestamp is older than the
    expiration window clears the whole cache: the read returns the empty
    mapping and removes the stored item, the get of every product identifier
    is absent, and every later read of the cleared storage stays absent. -/
theorem cache_expiry_clears_all (blob : CacheBlob) (now : Nat)
    (ht : blob.timestamp ≠ 0)
    (hexp : (now : Int) - (blob.timestamp : Int) > (expirationMs : Int)) :
    cacheGetAll now (some blob) = ([], none) ∧
    (∀ pid, (cacheGet now (some blob) pid).1 = none) ∧
    (∀ now2 pid, (cacheGet now2 (cacheGetAll now (some blob)).2 pid).1 = none) := by
  have h : cacheGetAll now (some blob) = ([], none) := by
    simp [cacheGetAll, cacheEnabled, ht, hexp]
  refine ⟨h, ?_, ?_⟩
  · intro pid
    simp [cacheGet, h, lookupProduct]
  · intro now2 pid
    simp only [cacheGet, h]
    simp [cacheGetAll, cacheEnabled, lookupProduct]

/-- Witness for C5: two stored products, an expired clock, both gone. -/
theorem cache_expiry_clears_all_witness :
    ((1 : Nat) ≠ 0) ∧
    ((expirationMs + 2 : Nat) : Int) - ((1 : Nat) : Int) > (expirationMs : Int) ∧
    (cacheGet (expirationMs + 2) (some ⟨1, [("p1", [{}]), ("p2", [{}])]⟩) "p1").1 = none ∧
    (cacheGet (expirationMs + 2) (some ⟨1, [("p1", [{}]), ("p2", [{}])]⟩) "p2").1 = none := by
  refine ⟨by decide, by decide, ?_, ?_⟩
  · exact (cache_expiry_clears_all ⟨1, [("p1", [{}]), ("p2", [{}])]⟩ (expirationMs + 2)
      (by decide) (by decide)).2.1 "p1"
  · exact (cache_expiry_clears_all ⟨1, [("p1", [{}]), ("p2", [{}])]⟩ (expirationMs + 2)
      (by decide) (by decide)).2.1 "p2"

/-- C1: every product card discovered by getAllProductCards that holds more
    than one inserted selector fragment is left by cleanupPreviousSelectors
    with precisely its first fragment, hence exactly one; and the public
    removeDuplicates operation performs the same removal. -/
theorem cleanup_removes_duplicate_fragments (dom : List ProductCard) (i : Nat)
    (h : i < dom.length)
    (hfound : dom.get ⟨i, h⟩ ∈ getAllProductCards dom)
    (hdup : 1 < (dom.get ⟨i, h⟩).fragments.length) :
    ((cleanupPreviousSelectors dom).get
        ⟨i, by simpa [cleanupPreviousSelectors] using h⟩).fragments
      = (dom.get ⟨i, h⟩).fragments.take 1 ∧
    ((cleanupPreviousSelectors dom).get
        ⟨i, by simpa [cleanupPreviousSelectors] using h⟩).fragments.length = 1 ∧
    (removeDuplicates dom).1 = cleanupPreviousSelectors dom := by
  have hproc : (dom.get ⟨i, h⟩).processed = false := by
    have hm := List.mem_filter.mp hfound
    simpa using hm.2
  have hget : (cleanupPreviousSelectors dom).get
      ⟨i, by simpa [cleanupPreviousSelectors] using h⟩
      = (fun c => if !c.processed then cleanupCard c else c) (dom.get ⟨i, h⟩) := by
    simp [cleanupPreviousSelectors]
  rw [hget]
  simp only [hproc, Bool.not_false, if_pos]
  simp only [List.get_eq_getElem] at hdup ⊢
  refine ⟨?_, ?_, rfl⟩
  · simp [cleanupCard, hdup]
  · simp [cleanupCard, hdup, List.length_take]
    omega

/-- Witness for C1: a single unprocessed card holding three fragments keeps
    exactly one after cleanup. -/
theorem cleanup_removes_duplicate_fragments_witness :
    (([⟨false, [⟨"1", []⟩, ⟨"1", []⟩, ⟨"1", []⟩]⟩] : List ProductCard).get
        ⟨0, by decide⟩ ∈
      getAllProductCards [⟨false, [⟨"1", []⟩, ⟨"1", []⟩, ⟨"1", []⟩]⟩]) ∧
    ((cleanupPreviousSelectors [⟨false, [⟨"1", []⟩, ⟨"1", []⟩, ⟨"1", []⟩]⟩]).get
        ⟨0, by decide⟩).fragments.length = 1 := by
  refine ⟨by decide, ?_⟩
  exact (cleanup_removes_duplicate_fragments
    [⟨false, [⟨"1", []⟩, ⟨"1", []⟩, ⟨"1", []⟩]⟩] 0 (by decide)
    (by decide) (by decide)).2.1

/-- Variation records whose size values arrive in the order L, XS, M, Q. -/
def exampleVariations : List VariationRecord :=
  [{ options := some [{ name := some "Talle", value := "L" }] },
   { options := some [{ name := some "Talle", value := "XS" }] },
   { options := some [{ name := some "Talle", value := "M" }] },
   { options := some [{ name := some "Talle", value := "Q" }] }]

/-- Entry produced by toSizeEntry for an example record with the given size
    value: not in stock (no stock fields are set) and no optional data. -/
def entryOf (v : String) : SizeEntry :=
  { value := v, inStock := false, variationId := none, sku := none, price := none }

theorem sizeLE_trans : ∀ a b c : SizeEntry, sizeLE a b → sizeLE b c → sizeLE a c := by
  intro a b c hab hbc
  simp only [sizeLE, decide_eq_true_eq] at *
  omega

theorem sizeLE_total : ∀ a b : SizeEntry, sizeLE a b || sizeLE b a := by
  intro a b
  simp only [sizeLE, Bool.or_eq_true, decide_eq_true_eq]
  omega

theorem extractSizes_example_eval :
    extractSizes exampleVariations =
      [entryOf "XS", entryOf "M", entryOf "L", entryOf "Q"] := by
  have hanti : ∀ a ∈ exampleVariations.filterMap toSizeEntry,
      ∀ b ∈ [entryOf "XS", entryOf "M", entryOf "L", entryOf "Q"],
      sizeLE a b = true → sizeLE b a = true → a = b := by decide
  refine List.Perm.eq_of_sorted ?_
    (List.sorted_mergeSort sizeLE_trans sizeLE_total _) (by decide)
    ((List.mergeSort_perm _ sizeLE).trans (by decide))
  intro a b ha hb
  exact hanti a (List.mem_mergeSort.mp ha) b hb

/-- C7: extractSizes sorts its entries by the fixed rank table through a
    stable sort. The output is ordered by rank (so values outside the table,
    ranked 999, come after every ranked value), it is a permutation of the
    mapped entries, every rank-ordered sublist of the input entries survives
    in order (stability), and the values L, XS, M, Q come out as
    XS, M, L, Q. -/
theorem extractSizes_rank_sorted_stable :
    (∀ variations : List VariationRecord,
      (extractSizes variations).Pairwise (fun a b => sizeLE a b = true) ∧
      (extractSizes variations).Perm (variations.filterMap toSizeEntry)) ∧
    (∀ (variations : List VariationRecord) (c : List SizeEntry),
      c.Pairwise (fun a b => sizeLE a b = true) →
      c.Sublist (variations.filterMap toSizeEntry) →
      c.Sublist (extractSizes variations)) ∧
    (extractSizes exampleVariations).map (fun e => e.value) = ["XS", "M", "L", "Q"] := by
  refine ⟨fun variations => ⟨?_, ?_⟩, fun variations c hc hsub => ?_,
    by rw [extractSizes_example_eval]; decide⟩
  · exact List.sorted_mergeSort sizeLE_trans sizeLE_total (variations.filterMap toSizeEntry)
  · exact List.mergeSort_perm (variations.filterMap toSizeEntry) sizeLE
  · exact List.sublist_mergeSort sizeLE_trans sizeLE_total hc hsub

/-- Witness for C7: the two rank-ordered entries XS and M of the example input
    stay in order in the sorted output. -/
theorem extractSizes_rank_sorted_stable_witness :
    ([{ value := "XS", inStock := false, variationId := none, sku := none,
        price := none },
      { value := "M", inStock := false, variationId := none, sku := none,
        price := none }] : List SizeEntry).Pairwise (fun a b => sizeLE a b = true) ∧
    ([{ value := "XS", inStock := false, variationId := none, sku := none,
        price := none },
      { value := "M", inStock := false, variationId := none, sku := none,
        price := none }] : List SizeEntry).Sublist
      (exampleVariations.filterMap toSizeEntry) ∧
    ([{ value := "XS", inStock := false, variationId := none, sku := none,
        price := none },
      { value := "M", inStock := false, variationId := none, sku := none,
        price := none }] : List SizeEntry).Sublist
      (extractSizes exampleVariations) := by
  refine ⟨by decide, by decide, ?_⟩
  exact extractSizes_rank_sorted_stable.2.1 exampleVariations _ (by decide) (by decide)

/-- C8: for every variation record carrying a size option, the derived entry
    is in stock exactly when the record is not explicitly out of stock and is
    either unlimited or explicitly in stock; an out-of-stock entry is rendered
    as a disabled button with no click handler; and the built selector holds
    exactly the rendered buttons of its entries. -/
theorem stock_rule_and_disabled_rendering :
    (∀ (v : VariationRecord) (e : SizeEntry), toSizeEntry v = some e →
      (e.inStock = true ↔
        (v.inStock ≠ some false ∧ (v.unlimited = some true ∨ v.inStock = some true)))) ∧
    (∀ e : SizeEntry, e.inStock = false →
      (makeSizeButton e).disabled = true ∧ (makeSizeButton e).hasClickHandler = false) ∧
    (∀ (sizes : List SizeEntry) (pid : String) (frag : SelectorFragment),
      createSizeSelector sizes pid = some frag →
      frag.buttons = sizes.map makeSizeButton) := by
  refine ⟨?_, ?_, ?_⟩
  · intro v e h
    cases hf : findSizeOption v with
    | none => simp [toSizeEntry, hf] at h
    | some o =>
        simp only [toSizeEntry, hf, Option.some.injEq] at h
        subst h
        simp [stockFlag, bne_iff_ne, Bool.and_eq_true, Bool.or_eq_true, beq_iff_eq]
  · intro e he
    simp [makeSizeButton, he]
  · intro sizes pid frag h
    simp only [createSizeSelector] at h
    split at h
    · cases h
    · injection h with h2
      rw [← h2]

/-- Witness for C8: a record that is explicitly out of stock and not unlimited
    yields an entry that is out of stock, rendered disabled and without a click
    handler. -/
theorem stock_rule_and_disabled_rendering_witness :
    toSizeEntry
        ({ options := some [{ name := some "Talle", value := "M" }],
           inStock := some false, unlimited := some false }) =
      some { value := "M", inStock := false, variationId := none, sku := none,
             price := none } ∧
    ¬({ value := "M", inStock := false, variationId := none, sku := none,
        price := none } : SizeEntry).inStock = true ∧
    (makeSizeButton
      ({ value := "M", inStock := false, variationId := none,
         sku := none, price := none })).disabled = true ∧
    (makeSizeButton
      ({ value := "M", inStock := false, variationId := none,
         sku := none, price := none })).hasClickHandler = false := by
  refine ⟨by decide, ?_, ?_⟩
  · intro hcontra
    have h := (stock_rule_and_disabled_rendering.1
      ({ options := some [{ name := some "Talle", value := "M" }],
         inStock := some false, unlimited := some false })
      ({ value := "M", inStock := false, variationId := none, sku := none,
         price := none }) (by decide)).mp hcontra
    exact h.1 (by decide)
  · exact stock_rule_and_disabled_rendering.2.1
      ({ value := "M", inStock := false, variationId := none, sku := none,
         price := none }) (by decide)

/-- C9: the proxy handler rejects every non-GET request with 405, rejects a
    missing productId with 400, mirrors a non-2xx upstream status and forwards
    the upstream body as details, returns the upstream JSON unchanged with the
    shared-cache directive on success, and answers 500 with a generic error on
    any thrown failure. -/
theorem proxy_handler_contract :
    ∀ (α : Type) (req : ProxyRequest) (up : UpstreamOutcome α),
    (req.method ≠ "GET" →
      handler req up = ⟨405, none, .errorBody "Method not allowed" none none⟩) ∧
    (req.method = "GET" → req.productId = none →
      handler req up = ⟨400, none, .errorBody "productId is required" none none⟩) ∧
    (∀ p status text json, req.method = "GET" → req.productId = some p → p ≠ "" →
      up = .response status text json → ¬(200 ≤ status ∧ status ≤ 299) →
      handler req up =
        ⟨status, none,
         .errorBody ("Ecwid API error: " ++ toString status) (some text) none⟩) ∧
    (∀ p status text d, req.method = "GET" → req.productId = some p → p ≠ "" →
      up = .response status text (.ok d) → 200 ≤ status → status ≤ 299 →
      handler req up =
        ⟨200, some "public, s-maxage=3600, stale-while-revalidate=86400",
         .jsonData d⟩) ∧
    (∀ p msg, req.method = "GET" → req.productId = some p → p ≠ "" →
      up = .fetchFailed msg →
      handler req up = ⟨500, none, .errorBody "Internal server error" none (some msg)⟩) ∧
    (∀ p status text msg, req.method = "GET" → req.productId = some p → p ≠ "" →
      up = .response status text (.error msg) → 200 ≤ status → status ≤ 299 →
      handler req up = ⟨500, none, .errorBody "Internal server error" none (some msg)⟩) := by
  intro α req up
  refine ⟨?_, ?_, ?_, ?_, ?_, ?_⟩
  · intro hm
    simp [handler, hm]
  · intro hm hp
    simp [handler, hm, hp, jsTruthyString]
  · intro p status text json hm hp hpne hup hok
    subst hup
    simp only [handler, hm, hp]
    simp [jsTruthyString, hpne, hok]
  · intro p status text d hm hp hpne hup h1 h2
    subst hup
    simp only [handler, hm, hp]
    simp [jsTruthyString, hpne, h1, h2]
  · intro p msg hm hp hpne hup
    subst hup
    simp only [handler, hm, hp]
    simp [jsTruthyString, hpne]
  · intro p status text msg hm hp hpne hup h1 h2
    subst hup
    simp only [handler, hm, hp]
    simp [jsTruthyString, hpne, h1, h2]

/-- Witness for C9: a GET for product 42 with an upstream 200 carrying a body
    is forwarded unchanged with the cache directive; a POST gets 405. -/
theorem proxy_handler_contract_witness :
    handler ⟨"GET", some "42"⟩
        (.response 200 "" (.ok [({} : VariationRecord)])) =
      ⟨200, some "public, s-maxage=3600, stale-while-revalidate=86400",
       .jsonData [{}]⟩ ∧
    handler ⟨"POST", some "42"⟩
        (.response 200 "" (.ok [({} : VariationRecord)])) =
      ⟨405, none, .errorBody "Method not allowed" none none⟩ := by
  constructor
  · exact (proxy_handler_contract (List VariationRecord) ⟨"GET", some "42"⟩
      (.response 200 "" (.ok [{}]))).2.2.2.1 "42" 200 "" [{}] rfl rfl (by decide)
      rfl (by decide) (by decide)
  · exact (proxy_handler_contract (List VariationRecord) ⟨"POST", some "42"⟩
      (.response 200 "" (.ok [{}]))).1 (by decide)

/-- C4: both network fetchers retry a 429 up to three times with backoff
    (retryCount + 1) * 2000 ms and other transient failures up to twice with a
    flat 1000 ms backoff; three consecutive 429 responses followed by a success
    on the fourth attempt yield the success value; four consecutive 429
    responses exhaust the retries and yield null so the caller can try the
    next source. -/
theorem fetcher_retry_backoff_policy :
    (∀ (responses : Nat → HttpResp) (v : List VariationRecord),
      responses 0 = .httpStatus 429 → responses 1 = .httpStatus 429 →
      responses 2 = .httpStatus 429 → responses 3 = .ok v →
      fetchFromProxy responses 0 = (some v, [2000, 4000, 6000]) ∧
      fetchFromAPI responses 0 = (some v, [2000, 4000, 6000])) ∧
    (∀ responses : Nat → HttpResp,
      responses 0 = .httpStatus 429 → responses 1 = .httpStatus 429 →
      responses 2 = .httpStatus 429 → responses 3 = .httpStatus 429 →
      fetchFromProxy responses 0 = (none, [2000, 4000, 6000]) ∧
      fetchFromAPI responses 0 = (none, [2000, 4000, 6000])) ∧
    (∀ (responses : Nat → HttpResp) (v : List VariationRecord) (m : String),
      responses 0 = .netFail m → jsIncludes m "403" = false → responses 1 = .ok v →
      fetchFromProxy responses 0 = (some v, [1000]) ∧
      fetchFromAPI responses 0 = (some v, [1000])) ∧
    (∀ (responses : Nat → HttpResp) (m0 m1 m2 : String),
      responses 0 = .netFail m0 → responses 1 = .netFail m1 →
      responses 2 = .netFail m2 →
      fetchFromProxy responses 0 = (none, [1000, 1000])) ∧
    (∀ (responses : Nat → HttpResp) (v : List VariationRecord),
      responses 0 = .httpStatus 500 → responses 1 = .httpStatus 500 →
      responses 2 = .ok v →
      fetchFromProxy responses 0 = (some v, [1000, 1000]) ∧
      fetchFromAPI responses 0 = (some v, [1000, 1000])) := by
  refine ⟨?_, ?_, ?_, ?_, ?_⟩
  · intro responses v h0 h1 h2 h3
    constructor
    · simp [fetchFromProxy, h0, h1, h2, h3]
    · simp [fetchFromAPI, h0, h1, h2, h3]
  · intro responses h0 h1 h2 h3
    constructor
    · simp [fetchFromProxy, h0, h1, h2, h3]
    · simp [fetchFromAPI, h0, h1, h2, h3, jsIncludes, httpErrorMessage, containsChars,
        startsWithChars]
  · intro responses v m h0 hm h1
    constructor
    · simp [fetchFromProxy, h0, h1]
    · simp [fetchFromAPI, h0, h1, hm]
  · intro responses m0 m1 m2 h0 h1 h2
    simp [fetchFromProxy, h0, h1, h2]
  · intro responses v h0 h1 h2
    constructor
    · simp [fetchFromProxy, h0, h1, h2]
    · simp [fetchFromAPI, h0, h1, h2, jsIncludes, httpErrorMessage, containsChars,
        startsWithChars, Nat.digitChar]

/-- Responses for the C4 witness: three 429 and then a success. -/
def rateLimitedResponses : Nat → HttpResp
  | 0 => .httpStatus 429
  | 1 => .httpStatus 429
  | 2 => .httpStatus 429
  | _ => .ok [{}]

/-- Witness for C4: three 429 responses then a success on the fourth attempt
    return the success value after backoffs of 2, 4 and 6 seconds. -/
theorem fetcher_retry_backoff_policy_witness :
    fetchFromProxy rateLimitedResponses 0 = (some [{}], [2000, 4000, 6000]) ∧
    fetchFromAPI rateLimitedResponses 0 = (some [{}], [2000, 4000, 6000]) :=
  fetcher_retry_backoff_policy.1 rateLimitedResponses [{}] rfl rfl rfl rfl

theorem cacheGet_cacheSet_self (now now2 : Nat) (st : Storage) (pid : String)
    (l : List VariationRecord)
    (hwin : (now2 : Int) - (now : Int) ≤ (expirationMs : Int)) :
    (cacheGet now2 (cacheSet now st pid l) pid).1 = some l := by
  rw [cacheSet_eq]
  simp [cacheGet, cacheGetAll_of_fresh now now2 _ hwin, lookupProduct_setProduct_self]

theorem isEmpty_false_of_ne_nil {l : List VariationRecord} (h : l ≠ []) :
    l.isEmpty = false := by
  cases l with
  | nil => exact absurd rfl h
  | cons a t => rfl

theorem fetchViaProxy_success (env : FetchEnv) (now : Nat) (pid : String)
    (l : List VariationRecord) (hproxy : env.proxyResult = some l) (hne : l ≠ []) :
    ∀ (b : Bool) (s : Storage),
      fetchViaProxy env now s pid b = ⟨l, cacheSet now s pid l, b, true, false⟩ := by
  intro b s
  simp [fetchViaProxy, hproxy, isEmpty_false_of_ne_nil hne]

theorem getProductVariations_hit (env : FetchEnv) (now : Nat) (st : Storage)
    (pid : String) (c : List VariationRecord)
    (h : (cacheGet now st pid).1 = some c) :
    getProductVariations env now st pid =
      ⟨c, (cacheGet now st pid).2, false, false, false⟩ := by
  simp [getProductVariations, h]

/-- C2: on a cache miss where the embedded JS API source yields nothing and the
    proxy yields a non-empty list, getProductVariations returns exactly the
    proxy records, marks the proxy as consulted, writes the records to the
    cache before returning, and a subsequent call for the same id inside the
    expiration window returns them from the cache with no source invoked; when
    every source yields nothing the call returns the empty array; and a
    non-empty JS API result short-circuits ahead of both network sources and is
    cached likewise. -/
theorem getProductVariations_fallback_contract (env env2 : FetchEnv)
    (now now2 : Nat) (st : Storage) (pid : String) (l : List VariationRecord)
    (hmiss : (cacheGet now st pid).1 = none)
    (hjs : env.ecwidAvailable = false ∨ env.jsApiResult = none ∨
      env.jsApiResult = some [])
    (hproxy : env.proxyResult = some l) (hne : l ≠ [])
    (hwin : (now2 : Int) - (now : Int) ≤ (expirationMs : Int)) :
    (getProductVariations env now st pid).result = l ∧
    (getProductVariations env now st pid).usedProxy = true ∧
    (getProductVariations env now st pid).storage =
      cacheSet now (cacheGet now st pid).2 pid l ∧
    (cacheGet now2 (getProductVariations env now st pid).storage pid).1 = some l ∧
    (getProductVariations env2 now2 (getProductVariations env now st pid).storage
        pid).result = l ∧
    (getProductVariations env2 now2 (getProductVariations env now st pid).storage
        pid).usedJsApi = false ∧
    (getProductVariations env2 now2 (getProductVariations env now st pid).storage
        pid).usedProxy = false ∧
    (getProductVariations env2 now2 (getProductVariations env now st pid).storage
        pid).usedApi = false ∧
    (∀ envf : FetchEnv,
      (envf.ecwidAvailable = false ∨ envf.jsApiResult = none ∨
        envf.jsApiResult = some []) →
      (envf.proxyResult = none ∨ envf.proxyResult = some []) →
      (envf.apiResult = none ∨ envf.apiResult = some []) →
      (getProductVariations envf now st pid).result = []) ∧
    (∀ (envj : FetchEnv) (m : List VariationRecord), envj.ecwidAvailable = true →
      envj.jsApiResult = some m → m ≠ [] →
      (getProductVariations envj now st pid).result = m ∧
      (getProductVariations envj now st pid).usedProxy = false ∧
      (getProductVariations envj now st pid).usedApi = false ∧
      (cacheGet now2 (getProductVariations envj now st pid).storage pid).1 = some m) := by
  have hm := fetchViaProxy_success env now pid l hproxy hne
  have hout : ∃ b, getProductVariations env now st pid =
      ⟨l, cacheSet now (cacheGet now st pid).2 pid l, b, true, false⟩ := by
    refine ⟨env.ecwidAvailable, ?_⟩
    rcases hjs with h | h | h
    · simp [getProductVariations, hmiss, h, hm]
    · cases he : env.ecwidAvailable
      · simp [getProductVariations, hmiss, he, hm]
      · simp [getProductVariations, hmiss, he, h, hm]
    · cases he : env.ecwidAvailable
      · simp [getProductVariations, hmiss, he, hm]
      · simp [getProductVariations, hmiss, he, h, hm]
  obtain ⟨b, hb⟩ := hout
  have hhit : (cacheGet now2 (getProductVariations env now st pid).storage pid).1
      = some l := by
    rw [hb]
    exact cacheGet_cacheSet_self now now2 _ pid l hwin
  have hsub := getProductVariations_hit env2 now2
    (getProductVariations env now st pid).storage pid l hhit
  refine ⟨by rw [hb], by rw [hb], by rw [hb], hhit, ?_, ?_, ?_, ?_, ?_, ?_⟩
  · rw [hsub]
  · rw [hsub]
  · rw [hsub]
  · rw [hsub]
  · intro envf hf1 hf2 hf3
    have hapi : ∀ (c : Bool) (s : Storage), (fetchViaApi envf now s pid c).result = [] := by
      intro c s
      rcases hf3 with h | h <;> simp [fetchViaApi, h]
    have hpr : ∀ (c : Bool) (s : Storage), (fetchViaProxy envf now s pid c).result = [] := by
      intro c s
      rcases hf2 with h | h <;> simp [fetchViaProxy, h, hapi]
    rcases hf1 with h | h | h
    · simp [getProductVariations, hmiss, h, hpr]
    · cases he : envf.ecwidAvailable
      · simp [getProductVariations, hmiss, he, hpr]
      · simp [getProductVariations, hmiss, he, h, hpr]
    · cases he : envf.ecwidAvailable
      · simp [getProductVariations, hmiss, he, hpr]
      · simp [getProductVariations, hmiss, he, h, hpr]
  · intro envj m hje hjm hmne
    have hjout : getProductVariations envj now st pid =
        ⟨m, cacheSet now (cacheGet now st pid).2 pid m, true, false, false⟩ := by
      simp [getProductVariations, hmiss, hje, hjm, isEmpty_false_of_ne_nil hmne]
    refine ⟨by rw [hjout], by rw [hjout], by rw [hjout], ?_⟩
    rw [hjout]
    exact cacheGet_cacheSet_self now now2 _ pid m hwin

/-- Witness for C2: empty storage, Ecwid absent, proxy returning one record. -/
theorem getProductVariations_fallback_contract_witness :
    (getProductVariations ⟨false, none, some [{}], none⟩ 0 none "1").result = [{}] ∧
    (getProductVariations ⟨false, none, none, none⟩ 0
        (getProductVariations ⟨false, none, some [{}], none⟩ 0 none "1").storage
        "1").result = [{}] ∧
    (getProductVariations ⟨false, none, none, none⟩ 0
        (getProductVariations ⟨false, none, some [{}], none⟩ 0 none "1").storage
        "1").usedProxy = false := by
  have h := getProductVariations_fallback_contract ⟨false, none, some [{}], none⟩
    ⟨false, none, none, none⟩ 0 0 none "1" [{}] (by decide) (Or.inl rfl) rfl
    (by decide) (by decide)
  exact ⟨h.1, h.2.2.2.2.1, h.2.2.2.2.2.2.1⟩

/-- Every entry present in the stored blob is a non-empty record list. -/
def entriesNonEmpty (st : Storage) : Prop :=
  ∀ k c, rawEntry st k = some c → c ≠ []

theorem lookup_cacheGetAll_fst (now : Nat) (st : Storage) (k : String)
    (c : List VariationRecord)
    (h : lookupProduct (cacheGetAll now st).1 k = some c) :
    rawEntry st k = some c := by
  cases st with
  | none => simp [cacheGetAll, cacheEnabled, lookupProduct] at h
  | some blob =>
      by_cases hexp : blob.timestamp ≠ 0 ∧
          (now : Int) - (blob.timestamp : Int) > (expirationMs : Int)
      · simp [cacheGetAll, cacheEnabled, hexp, lookupProduct] at h
      · simp only [cacheGetAll, cacheEnabled] at h
        simp only [Bool.not_true, Bool.false_eq_true, if_false, if_neg hexp] at h
        simpa [rawEntry] using h

theorem nonEmpty_cacheSet (now : Nat) (st : Storage) (pid : String)
    (l : List VariationRecord) (hl : l ≠ []) (hs : entriesNonEmpty st) :
    entriesNonEmpty (cacheSet now st pid l) := by
  intro k c hk
  rw [cacheSet_eq] at hk
  simp only [rawEntry] at hk
  by_cases hkp : k = pid
  · subst hkp
    rw [lookupProduct_setProduct_self] at hk
    cases hk
    exact hl
  · rw [lookupProduct_setProduct_ne _ _ _ _ hkp] at hk
    exact hs k c (lookup_cacheGetAll_fst now st k c hk)

theorem cacheGetAll_snd_cases (now : Nat) (st : Storage) :
    (cacheGetAll now st).2 = st ∨ (cacheGetAll now st).2 = none := by
  cases st with
  | none => right; simp [cacheGetAll, cacheEnabled]
  | some blob =>
      by_cases hexp : blob.timestamp ≠ 0 ∧
          (now : Int) - (blob.timestamp : Int) > (expirationMs : Int)
      · right; simp [cacheGetAll, cacheEnabled, hexp]
      · left; simp [cacheGetAll, cacheEnabled, hexp]

theorem nonEmpty_after_read (now : Nat) (st : Storage) (hs : entriesNonEmpty st) :
    entriesNonEmpty (cacheGetAll now st).2 := by
  rcases cacheGetAll_snd_cases now st with h | h
  · rw [h]; exact hs
  · rw [h]; intro k c hk; simp [rawEntry] at hk

theorem cacheGet_stable (now : Nat) (st : Storage) (pid : String) :
    (cacheGet now (cacheGet now st pid).2 pid).1 = (cacheGet now st pid).1 := by
  cases st with
  | none => simp [cacheGet, cacheGetAll, cacheEnabled]
  | some blob =>
      by_cases hexp : blob.timestamp ≠ 0 ∧
          (now : Int) - (blob.timestamp : Int) > (expirationMs : Int)
      · simp [cacheGet, cacheGetAll, cacheEnabled, hexp, lookupProduct]
      · simp [cacheGet, cacheGetAll, cacheEnabled, hexp]

theorem fetchViaProxy_storage_cases (env : FetchEnv) (now : Nat) (s : Storage)
    (pid : String) (b : Bool) :
    (fetchViaProxy env now s pid b).storage = s ∨
    ∃ m, m ≠ [] ∧ (fetchViaProxy env now s pid b).storage = cacheSet now s pid m := by
  cases hp : env.proxyResult with
  | none =>
      cases ha : env.apiResult with
      | none => left; simp [fetchViaProxy, fetchViaApi, hp, ha]
      | some l =>
          cases hl : l.isEmpty
          · right
            refine ⟨l, by simpa using hl, ?_⟩
            simp [fetchViaProxy, fetchViaApi, hp, ha, hl]
          · left; simp [fetchViaProxy, fetchViaApi, hp, ha, hl]
  | some l =>
      cases hl : l.isEmpty
      · right
        refine ⟨l, by simpa using hl, ?_⟩
        simp [fetchViaProxy, hp, hl]
      · cases ha : env.apiResult with
        | none => left; simp [fetchViaProxy, fetchViaApi, hp, ha, hl]
        | some l2 =>
            cases hl2 : l2.isEmpty
            · right
              refine ⟨l2, by simpa using hl2, ?_⟩
              simp [fetchViaProxy, fetchViaApi, hp, ha, hl, hl2]
            · left; simp [fetchViaProxy, fetchViaApi, hp, ha, hl, hl2]

theorem getProductVariations_storage_cases (env : FetchEnv) (now : Nat)
    (st : Storage) (pid : String) :
    (getProductVariations env now st pid).storage = (cacheGet now st pid).2 ∨
    ∃ m, m ≠ [] ∧ (getProductVariations env now st pid).storage =
      cacheSet now (cacheGet now st pid).2 pid m := by
  cases hc : (cacheGet now st pid).1 with
  | some c =>
      left
      rw [getProductVariations_hit env now st pid c hc]
  | none =>
      simp only [getProductVariations, hc]
      cases he : env.ecwidAvailable
      · simpa using fetchViaProxy_storage_cases env now (cacheGet now st pid).2 pid false
      · cases hj : env.jsApiResult with
        | none =>
            simpa using fetchViaProxy_storage_cases env now (cacheGet now st pid).2 pid true
        | some m =>
            cases hm : m.isEmpty
            · right
              exact ⟨m, by simpa using hm, by simp [hm]⟩
            · simpa [hm] using
                fetchViaProxy_storage_cases env now (cacheGet now st pid).2 pid true

/-- C10: the fetch pipeline never writes an empty record list to the cache: if
    every stored entry is non-empty, that stays true after any call; under the
    same invariant a cache hit returns a non-empty array; and when every source
    fails the storage keeps exactly the entries the read left, the call returns
    the empty array, and the next call for the same id misses the cache and
    consults the proxy source again instead of a negative cache entry. -/
theorem pipeline_never_caches_empty (env : FetchEnv) (now : Nat) (st : Storage)
    (pid : String) :
    (entriesNonEmpty st →
      entriesNonEmpty (getProductVariations env now st pid).storage) ∧
    (entriesNonEmpty st → ∀ c, (cacheGet now st pid).1 = some c →
      (getProductVariations env now st pid).result = c ∧ c ≠ []) ∧
    ((cacheGet now st pid).1 = none →
      (env.ecwidAvailable = false ∨ env.jsApiResult = none ∨
        env.jsApiResult = some []) →
      (env.proxyResult = none ∨ env.proxyResult = some []) →
      (env.apiResult = none ∨ env.apiResult = some []) →
      (getProductVariations env now st pid).storage = (cacheGet now st pid).2 ∧
      (getProductVariations env now st pid).result = [] ∧
      (getProductVariations env now
          (getProductVariations env now st pid).storage pid).usedProxy = true) := by
  refine ⟨?_, ?_, ?_⟩
  · intro hs
    have hs2 : entriesNonEmpty (cacheGet now st pid).2 :=
      nonEmpty_after_read now st hs
    rcases getProductVariations_storage_cases env now st pid with h | ⟨m, hm, h⟩
    · rw [h]; exact hs2
    · rw [h]; exact nonEmpty_cacheSet now _ pid m hm hs2
  · intro hs c hc
    rw [getProductVariations_hit env now st pid c hc]
    refine ⟨rfl, ?_⟩
    have hraw : rawEntry st pid = some c := lookup_cacheGetAll_fst now st pid c hc
    exact hs pid c hraw
  · intro hmiss hf1 hf2 hf3
    have hapi : ∀ (b : Bool) (s : Storage),
        fetchViaApi env now s pid b = ⟨[], s, b, true, true⟩ := by
      intro b s
      rcases hf3 with h | h <;> simp [fetchViaApi, h]
    have hpr : ∀ (b : Bool) (s : Storage),
        fetchViaProxy env now s pid b = ⟨[], s, b, true, true⟩ := by
      intro b s
      rcases hf2 with h | h <;> simp [fetchViaProxy, h, hapi]
    have hout : ∃ b, getProductVariations env now st pid =
        ⟨[], (cacheGet now st pid).2, b, true, true⟩ := by
      refine ⟨env.ecwidAvailable, ?_⟩
      rcases hf1 with h | h | h
      · simp [getProductVariations, hmiss, h, hpr]
      · cases he : env.ecwidAvailable
        · simp [getProductVariations, hmiss, he, hpr]
        · simp [getProductVariations, hmiss, he, h, hpr]
      · cases he : env.ecwidAvailable
        · simp [getProductVariations, hmiss, he, hpr]
        · simp [getProductVariations, hmiss, he, h, hpr]
    obtain ⟨b, hb⟩ := hout
    have hmiss3 : (cacheGet now (cacheGet now st pid).2 pid).1 = none := by
      rw [cacheGet_stable now st pid]
      exact hmiss
    refine ⟨by rw [hb], by rw [hb], ?_⟩
    rw [hb]
    rcases hf1 with h | h | h
    · simp [getProductVariations, hmiss3, h, hpr]
    · cases he : env.ecwidAvailable
      · simp [getProductVariations, hmiss3, he, hpr]
      · simp [getProductVariations, hmiss3, he, h, hpr]
    · cases he : env.ecwidAvailable
      · simp [getProductVariations, hmiss3, he, hpr]
      · simp [getProductVariations, hmiss3, he, h, hpr]

/-- Witness for C10: a storage with one non-empty entry keeps the invariant
    through a totally failing call for a missing product, the failing call
    returns the empty array without writing, and the next call consults the
    proxy again. -/
theorem pipeline_never_caches_empty_witness :
    (getProductVariations ⟨false, none, none, none⟩ 5
        (some ⟨0, [("1", [{}])]⟩) "2").result = [] ∧
    (getProductVariations ⟨false, none, none, none⟩ 5
        (some ⟨0, [("1", [{}])]⟩) "2").storage =
      (cacheGet 5 (some ⟨0, [("1", [{}])]⟩) "2").2 ∧
    (getProductVariations ⟨false, none, none, none⟩ 5
        (getProductVariations ⟨false, none, none, none⟩ 5
          (some ⟨0, [("1", [{}])]⟩) "2").storage "2").usedProxy = true ∧
    (getProductVariations ⟨false, none, none, none⟩ 5
        (some ⟨0, [("1", [{}])]⟩) "1").result = [{}] := by
  have h := pipeline_never_caches_empty ⟨false, none, none, none⟩ 5
    (some ⟨0, [("1", [{}])]⟩) "2"
  have h3 := h.2.2 (by decide) (Or.inl rfl) (Or.inl rfl) (Or.inl rfl)
  have hinv : entriesNonEmpty (some ⟨0, [("1", [{}])]⟩) := by
    intro k c hk
    simp only [rawEntry, lookupProduct] at hk
    split at hk
    · injection hk with hk2
      rw [← hk2]
      decide
    · cases hk
  have h2 := (pipeline_never_caches_empty ⟨false, none, none, none⟩ 5
    (some ⟨0, [("1", [{}])]⟩) "1").2.1 hinv [{}] (by decide)
  exact ⟨h3.2.1, h3.1, h3.2.2, h2.1⟩

/-- One invocation owns the node: the other one is still unstarted or already
    returned, and the owner is between its suspension points with no fragment
    inserted yet, or finished with exactly one fragment inserted. -/
def ownerOk (n : NodeState) (p q : ProcPhase) : Prop :=
  (q = .start ∨ q = .done) ∧
  ((p = .fetched ∧ n.fragments = 0) ∨ (p = .raf ∧ n.fragments = 0) ∨
   (p = .done ∧ n.fragments = 1))

/-- Invariant of the race of two processProduct invocations on a fresh node:
    either nobody has run yet, or the processed marker is set and exactly one
    invocation owns the node. -/
def raceInv (s : TwoRuns) : Prop :=
  (s.node.processed = false ∧ s.first = .start ∧ s.second = .start ∧
    s.node.fragments = 0) ∨
  (s.node.processed = true ∧
    (ownerOk s.node s.first s.second ∨ ownerOk s.node s.second s.first))

theorem procStep_start_processed (env : NodeEnv) (n : NodeState)
    (h : n.processed = true) : procStep env (n, .start) = (n, .done) := by
  simp [procStep, h]

theorem procStep_start_fresh (env : NodeEnv) (n : NodeState)
    (hp : n.processed = false) (hf : n.fragments = 0)
    (hid : env.productId.isSome) :
    procStep env (n, .start) = ({ n with processed := true }, .fetched) := by
  obtain ⟨pid, hpid⟩ := Option.isSome_iff_exists.mp hid
  simp [procStep, hp, hf, hpid]

theorem procStep_fetched_good (env : NodeEnv) (n : NodeState)
    (hf : n.fragments = 0) (hv : env.variations ≠ [])
    (hs : extractSizes env.variations ≠ [])
    (ha : env.attachedToDocument = true) :
    procStep env (n, .fetched) = (n, .raf) := by
  have hv2 : env.variations.length ≠ 0 := by
    simpa [List.length_eq_zero] using hv
  have hs2 : (extractSizes env.variations).length ≠ 0 := by
    simpa [List.length_eq_zero] using hs
  simp [procStep, hv2, hs2, createSizeSelector, hf, ha]

theorem procStep_raf_fresh (env : NodeEnv) (n : NodeState)
    (hf : n.fragments = 0) :
    procStep env (n, .raf) = ({ n with fragments := n.fragments + 1 }, .done) := by
  cases env.hasPriceElement <;> simp [procStep, hf]

theorem procStep_done_eq (env : NodeEnv) (n : NodeState) :
    procStep env (n, .done) = (n, .done) := rfl

theorem runStep_false_eq (env : NodeEnv) (s : TwoRuns) :
    runStep env s false =
      { s with node := (procStep env (s.node, s.second)).1,
               second := (procStep env (s.node, s.second)).2 } := rfl

theorem runStep_true_eq (env : NodeEnv) (s : TwoRuns) :
    runStep env s true =
      { s with node := (procStep env (s.node, s.first)).1,
               first := (procStep env (s.node, s.first)).2 } := rfl

theorem raceInv_step (env : NodeEnv) (hid : env.productId.isSome)
    (hv : env.variations ≠ []) (hs : extractSizes env.variations ≠ [])
    (ha : env.attachedToDocument = true)
    (s : TwoRuns) (hinv : raceInv s) (b : Bool) :
    raceInv (runStep env s b) := by
  rcases hinv with ⟨hp, h1, h2, hf⟩ | ⟨hp, hown⟩
  · have hstep := procStep_start_fresh env s.node hp hf hid
    cases b
    · rw [runStep_false_eq, h2, hstep]
      right
      exact ⟨rfl, Or.inr ⟨Or.inl h1, Or.inl ⟨rfl, hf⟩⟩⟩
    · rw [runStep_true_eq, h1, hstep]
      right
      exact ⟨rfl, Or.inl ⟨Or.inl h2, Or.inl ⟨rfl, hf⟩⟩⟩
  · -- one invocation owns the node; we handle stepping the owner and stepping
    -- the bystander for each of the two symmetric sides
    rcases hown with ⟨hq, hcase⟩ | ⟨hq, hcase⟩
    · cases b
      · -- step the second invocation, the bystander
        rcases hq with hq | hq
        · rw [runStep_false_eq, hq, procStep_start_processed env s.node hp]
          right
          exact ⟨hp, Or.inl ⟨Or.inr rfl, hcase⟩⟩
        · rw [runStep_false_eq, hq, procStep_done_eq]
          right
          exact ⟨hp, Or.inl ⟨Or.inr rfl, hcase⟩⟩
      · -- step the first invocation, the owner
        rcases hcase with ⟨hph, hfr⟩ | ⟨hph, hfr⟩ | ⟨hph, hfr⟩
        · rw [runStep_true_eq, hph, procStep_fetched_good env s.node hfr hv hs ha]
          right
          exact ⟨hp, Or.inl ⟨hq, Or.inr (Or.inl ⟨rfl, hfr⟩)⟩⟩
        · rw [runStep_true_eq, hph, procStep_raf_fresh env s.node hfr]
          right
          refine ⟨hp, Or.inl ⟨hq, Or.inr (Or.inr ⟨rfl, ?_⟩)⟩⟩
          simp [hfr]
        · rw [runStep_true_eq, hph, procStep_done_eq]
          right
          exact ⟨hp, Or.inl ⟨hq, Or.inr (Or.inr ⟨rfl, hfr⟩)⟩⟩
    · cases b
      · -- step the second invocation, the owner
        rcases hcase with ⟨hph, hfr⟩ | ⟨hph, hfr⟩ | ⟨hph, hfr⟩
        · rw [runStep_false_eq, hph, procStep_fetched_good env s.node hfr hv hs ha]
          right
          exact ⟨hp, Or.inr ⟨hq, Or.inr (Or.inl ⟨rfl, hfr⟩)⟩⟩
        · rw [runStep_false_eq, hph, procStep_raf_fresh env s.node hfr]
          right
          refine ⟨hp, Or.inr ⟨hq, Or.inr (Or.inr ⟨rfl, ?_⟩)⟩⟩
          simp [hfr]
        · rw [runStep_false_eq, hph, procStep_done_eq]
          right
          exact ⟨hp, Or.inr ⟨hq, Or.inr (Or.inr ⟨rfl, hfr⟩)⟩⟩
      · -- step the first invocation, the bystander
        rcases hq with hq | hq
        · rw [runStep_true_eq, hq, procStep_start_processed env s.node hp]
          right
          exact ⟨hp, Or.inr ⟨Or.inr rfl, hcase⟩⟩
        · rw [runStep_true_eq, hq, procStep_done_eq]
          right
          exact ⟨hp, Or.inr ⟨Or.inr rfl, hcase⟩⟩

theorem raceInv_runSchedule (env : NodeEnv) (hid : env.productId.isSome)
    (hv : env.variations ≠ []) (hs : extractSizes env.variations ≠ [])
    (ha : env.attachedToDocument = true) (sched : List Bool) (s : TwoRuns)
    (hinv : raceInv s) : raceInv (runSchedule env s sched) := by
  induction sched generalizing s with
  | nil => exact hinv
  | cons b rest ih => exact ih _ (raceInv_step env hid hv hs ha s hinv b)

/-- C3: processProduct sets the processed marker in its first synchronous
    slice, before any suspension; consequently, for a fresh node (unprocessed,
    holding no selector, with an extractable id, non-empty variations and
    sizes, attached to the document), any interleaving of two invocations that
    runs both to completion inserts exactly one selector fragment. -/
theorem processProduct_double_invocation_single_fragment (env : NodeEnv)
    (sched : List Bool) (node0 : NodeState)
    (hid : env.productId.isSome) (hv : env.variations ≠ [])
    (hs : extractSizes env.variations ≠ [])
    (ha : env.attachedToDocument = true)
    (hp0 : node0.processed = false) (hf0 : node0.fragments = 0)
    (hdone1 : (runSchedule env ⟨node0, .start, .start⟩ sched).first = .done)
    (hdone2 : (runSchedule env ⟨node0, .start, .start⟩ sched).second = .done) :
    (runSchedule env ⟨node0, .start, .start⟩ sched).node.fragments = 1 ∧
    (∀ n : NodeState, n.processed = false →
      (procStep env (n, .start)).1.processed = true) := by
  constructor
  · have hinv := raceInv_runSchedule env hid hv hs ha sched ⟨node0, .start, .start⟩
      (Or.inl ⟨hp0, rfl, rfl, hf0⟩)
    rcases hinv with ⟨_, h1, _, _⟩ | ⟨_, ⟨_, hcase⟩ | ⟨_, hcase⟩⟩
    · rw [hdone1] at h1
      cases h1
    · rcases hcase with ⟨hph, _⟩ | ⟨hph, _⟩ | ⟨_, hfr⟩
      · rw [hdone1] at hph
        cases hph
      · rw [hdone1] at hph
        cases hph
      · exact hfr
    · rcases hcase with ⟨hph, _⟩ | ⟨hph, _⟩ | ⟨_, hfr⟩
      · rw [hdone2] at hph
        cases hph
      · rw [hdone2] at hph
        cases hph
      · exact hfr
  · intro n hn
    cases hpid : env.productId <;> by_cases hfr : n.fragments = 0 <;>
      simp [procStep, hn, hpid, hfr]

/-- Variation record with a single Talle option of value M. -/
def vM : VariationRecord := { options := some [{ name := some "Talle", value := "M" }] }

/-- Node environment for the C3 witness: extractable id, one variation with
    one size, a price element, and an attached node. -/
def envC3 : NodeEnv := ⟨some "9", [vM], true, true⟩

theorem extractSizes_vM : extractSizes [vM] = [entryOf "M"] := by
  show List.mergeSort (List.filterMap toSizeEntry [vM]) sizeLE = _
  rw [show List.filterMap toSizeEntry [vM] = [entryOf "M"] from rfl]
  exact List.mergeSort_singleton _

theorem runSchedule_envC3_eval :
    runSchedule envC3 ⟨⟨false, 0⟩, .start, .start⟩ [true, true, true, false] =
      ⟨⟨true, 1⟩, .done, .done⟩ := by
  have h1 : procStep envC3 (⟨false, 0⟩, .start) = (⟨true, 0⟩, .fetched) := by
    simp [procStep, envC3]
  have h2 : procStep envC3 (⟨true, 0⟩, .fetched) = (⟨true, 0⟩, .raf) := by
    simp [procStep, envC3, extractSizes_vM, createSizeSelector]
  have h3 : procStep envC3 (⟨true, 0⟩, .raf) = (⟨true, 1⟩, .done) := by
    simp [procStep, envC3]
  have h4 : procStep envC3 (⟨true, 1⟩, .start) = (⟨true, 1⟩, .done) := by
    simp [procStep]
  simp [runSchedule, runStep, h1, h2, h3, h4]

/-- Witness for C3: the schedule that runs the first invocation to completion
    and then starts the second ends with both invocations done and exactly one
    inserted fragment. -/
theorem processProduct_double_invocation_single_fragment_witness :
    (runSchedule envC3 ⟨⟨false, 0⟩, .start, .start⟩
        [true, true, true, false]).first = .done ∧
    (runSchedule envC3 ⟨⟨false, 0⟩, .start, .start⟩
        [true, true, true, false]).second = .done ∧
    (runSchedule envC3 ⟨⟨false, 0⟩, .start, .start⟩
        [true, true, true, false]).node.fragments = 1 := by
  have hdone1 : (runSchedule envC3 ⟨⟨false, 0⟩, .start, .start⟩
      [true, true, true, false]).first = .done := by
    rw [runSchedule_envC3_eval]
  have hdone2 : (runSchedule envC3 ⟨⟨false, 0⟩, .start, .start⟩
      [true, true, true, false]).second = .done := by
    rw [runSchedule_envC3_eval]
  refine ⟨hdone1, hdone2, ?_⟩
  exact (processProduct_double_invocation_single_fragment envC3
    [true, true, true, false] ⟨false, 0⟩ rfl (by decide)
    (by show extractSizes [vM] ≠ []; rw [extractSizes_vM]; decide)
    rfl rfl rfl hdone1 hdone2).1

end SizeSelector
